import Mathlib

/-!
Verification of the special-key encoding core of kitty (kitty/keys.py),
as described by the repository's design spec and exercised by
src/kitty_tests/keys.py.  Bytes are modelled as `List Nat`; fallible
operations return `Except KeyErr (List Nat)`.
-/

/-- Decidable equality on `Except`, needed to settle claims by evaluation. -/
instance {ε α : Type} [DecidableEq ε] [DecidableEq α] : DecidableEq (Except ε α) := fun x y =>
  match x, y with
  | .ok a, .ok b => if h : a = b then .isTrue (by rw [h]) else .isFalse (by simp [h])
  | .error a, .error b => if h : a = b then .isTrue (by rw [h]) else .isFalse (by simp [h])
  | .ok _, .error _ => .isFalse (by simp)
  | .error _, .ok _ => .isFalse (by simp)

/-- The byte `b` is an ASCII letter. -/
def isLetterByte (b : Nat) : Bool := (65 ≤ b && b ≤ 90) || (97 ≤ b && b ≤ 122)

/-- The byte `b` is an ASCII decimal digit. -/
def isDigitByte (b : Nat) : Bool := 48 ≤ b && b ≤ 57

/-- Decimal digit bytes of `n`, most significant first (fuel-indexed helper). -/
def digitsAux : Nat → Nat → List Nat
  | 0, _ => []
  | fuel+1, n => if n < 10 then [48 + n] else digitsAux fuel (n / 10) ++ [48 + n % 10]

/-- ASCII decimal representation of `n` as bytes. -/
def natBytes (n : Nat) : List Nat := digitsAux (n+1) n

/-- Numeric value of a list of ASCII digit bytes. -/
def digitsVal (ds : List Nat) : Nat := ds.foldl (fun a b => a * 10 + (b - 48)) 0

/-- Split a byte list into its maximal leading run of digit bytes and the rest. -/
def splitDigits : List Nat → (List Nat × List Nat)
  | [] => ([], [])
  | b :: rest =>
    if isDigitByte b then
      let p := splitDigits rest
      (b :: p.1, p.2)
    else ([], b :: rest)

/-- Error conditions of the key-encoding core (spec §7). -/
inductive KeyErr where
  | unsupportedCapability
  | unsupportedModifierCombination
  deriving DecidableEq, Repr

/-- Escape-sequence introducer of a parsed capability template (spec §4.2). -/
inductive Introducer where
  | ss3
  | csi
  deriving DecidableEq, Repr

/-- Structured form of a capability template (spec §4.2):
introducer, optional embedded numeric code, final character. -/
structure Parsed where
  intro : Introducer
  numericCode : Option Nat
  finalChar : Nat
  deriving DecidableEq, Repr

/-- Modelled from the spec: the Capability Parser of kitty/keys.py (not under
src/).  Recognizes exactly the CSI-tilde shape `ESC [ N ~` and the
CSI/SS3-letter shapes `ESC [ letter` / `ESC O letter`; anything else fails
with `UnsupportedCapability` (spec §4.2). -/
def parseCsiBody (rest : List Nat) : Except KeyErr Parsed :=
  match splitDigits rest with
  | ([], [c]) =>
    if isLetterByte c then .ok ⟨.csi, none, c⟩ else .error .unsupportedCapability
  | (d :: ds, [126]) => .ok ⟨.csi, some (digitsVal (d :: ds)), 126⟩
  | _ => .error .unsupportedCapability

/-- Modelled from the spec: top level of the Capability Parser (spec §4.2). -/
def parse (t : List Nat) : Except KeyErr Parsed :=
  match t with
  | 27 :: 91 :: rest => parseCsiBody rest
  | [27, 79, c] =>
    if isLetterByte c then .ok ⟨.ss3, none, c⟩ else .error .unsupportedCapability
  | _ => .error .unsupportedCapability

/-- A set of keyboard modifiers (spec §3): bit flags over
Shift, Alt, Control and the out-of-set Super flag. -/
structure ModifierSet where
  shift : Bool
  alt : Bool
  control : Bool
  superKey : Bool
  deriving DecidableEq, Fintype, Repr

/-- The empty modifier set. -/
def noMods : ModifierSet := ⟨false, false, false, false⟩

/-- Modelled from the spec: the Modifier Encoder of kitty/keys.py (not under
src/).  Explicit table Shift→2, Alt→3, Shift+Alt→4, Control→5,
Shift+Control→6, Alt+Control→7, Shift+Alt+Control→8; fails with
`UnsupportedModifierCombination` on the empty set or any set containing a
modifier outside Shift/Alt/Control (spec §4.3). -/
def encode (m : ModifierSet) : Except KeyErr Nat :=
  if m.superKey then .error .unsupportedModifierCombination
  else
    match m.shift, m.alt, m.control with
    | true,  false, false => .ok 2
    | false, true,  false => .ok 3
    | true,  true,  false => .ok 4
    | false, false, true  => .ok 5
    | true,  false, true  => .ok 6
    | false, true,  true  => .ok 7
    | true,  true,  true  => .ok 8
    | false, false, false => .error .unsupportedModifierCombination

/-- Modelled from the spec: the Sequence Composer of kitty/keys.py (not under
src/).  Tilde shape becomes `ESC [ N ; P ~`; letter shape (CSI or SS3 base)
is always emitted in CSI form `ESC [ 1 ; P letter` (spec §4.4). -/
def compose (p : Parsed) (param : Nat) : List Nat :=
  match p.numericCode with
  | some n => [27, 91] ++ natBytes n ++ [59] ++ natBytes param ++ [126]
  | none => [27, 91, 49, 59] ++ natBytes param ++ [p.finalChar]

/-- Modelled from the spec: `modify_key_bytes` of kitty/keys.py (not under
src/): parse a base template and compose it with a modifier parameter. -/
def modify_key_bytes (t : List Nat) (param : Nat) : Except KeyErr (List Nat) :=
  (parse t).map (fun p => compose p param)

/-- Modelled from the spec: the terminfo-mnemonic slice of the Capability
Table of kitty/keys.py (not under src/), restricted to the capabilities the
tests exercise: kcuu1 (cursor up, application form `ESC O A`), kf5
(`ESC [ 15 ~`) and kri (scroll backward, `ESC [ 1 ; 2 A` — outside the two
supported shapes). -/
def capTemplate (name : String) : Option (List Nat) :=
  if name = "kcuu1" then some [27, 79, 65]
  else if name = "kf5" then some [27, 91, 49, 53, 126]
  else if name = "kri" then some [27, 91, 49, 59, 50, 65]
  else none

/-- Modelled from the spec: `modify_complex_key` of kitty/keys.py (not under
src/): look up a capability template by mnemonic and compose it with a
modifier parameter. -/
def modify_complex_key (name : String) (amt : Nat) : Except KeyErr (List Nat) :=
  match capTemplate name with
  | some t => modify_key_bytes t amt
  | none => .error .unsupportedCapability

/-- The closed enumeration of special keys handled by the core (spec §3). -/
inductive KeyCode where
  | up | down | right | left | home | endKey
  | insert | delete | pageUp | pageDown
  | f1 | f2 | f3 | f4 | f5 | f6 | f7 | f8 | f9 | f10 | f11 | f12
  deriving DecidableEq, Fintype, Repr

open KeyCode in
/-- Modelled from the spec: `smkx_key_map` of kitty/keys.py (not under src/):
the application-mode (smkx) base template of each special key. -/
def smkx_key_map : KeyCode → List Nat
  | up => [27, 79, 65]
  | down => [27, 79, 66]
  | right => [27, 79, 67]
  | left => [27, 79, 68]
  | home => [27, 79, 72]
  | endKey => [27, 79, 70]
  | KeyCode.insert => [27, 91, 50, 126]
  | KeyCode.delete => [27, 91, 51, 126]
  | KeyCode.pageUp => [27, 91, 53, 126]
  | KeyCode.pageDown => [27, 91, 54, 126]
  | f1 => [27, 79, 80]
  | f2 => [27, 79, 81]
  | f3 => [27, 79, 82]
  | f4 => [27, 79, 83]
  | f5 => [27, 91, 49, 53, 126]
  | f6 => [27, 91, 49, 55, 126]
  | f7 => [27, 91, 49, 56, 126]
  | f8 => [27, 91, 49, 57, 126]
  | f9 => [27, 91, 50, 48, 126]
  | f10 => [27, 91, 50, 49, 126]
  | f11 => [27, 91, 50, 51, 126]
  | f12 => [27, 91, 50, 52, 126]

open KeyCode in
/-- Modelled from the spec: the normal-mode (rmkx) base templates (spec §4.1).
Movement keys get their CSI variant; every other special key keeps its single
mode-independent template. -/
def rmkx_key_map : KeyCode → List Nat
  | up => [27, 91, 65]
  | down => [27, 91, 66]
  | right => [27, 91, 67]
  | left => [27, 91, 68]
  | home => [27, 91, 72]
  | endKey => [27, 91, 70]
  | k => smkx_key_map k

/-- Capability Table lookup (spec §4.1): mode-aware base template. -/
def lookup (k : KeyCode) (cursorKeyMode : Bool) : List Nat :=
  if cursorKeyMode then smkx_key_map k else rmkx_key_map k

/-- Key actions (spec §4.5). -/
inductive KeyAction where
  | press
  | rep
  | release
  deriving DecidableEq, Fintype, Repr

/-- Modelled from the spec: `interpret_key_event` of kitty/keys.py (not under
src/), the Event Interpreter (spec §4.5).  RELEASE yields no bytes; no
modifiers returns the mode-aware base template; otherwise the CSI-form base
is parsed, the modifier set encoded and the sequence composed, errors
propagating. -/
def interpret_key_event (key : KeyCode) (mods : ModifierSet)
    (cursorKeyMode : Bool) (action : KeyAction) : Except KeyErr (List Nat) :=
  match action with
  | .release => .ok []
  | _ =>
    if mods = noMods then .ok (lookup key cursorKeyMode)
    else do
      let p ← parse (rmkx_key_map key)
      let param ← encode mods
      .ok (compose p param)

/-- The byte `b` may terminate an escape sequence: a letter or `~`. -/
def isFinalByte (b : Nat) : Bool := isLetterByte b || b == 126

/-- The byte list `bs` is one complete escape sequence: it begins with the
ESC byte 0x1b and ends with a final character (spec §7). -/
def isCompleteSeq (bs : List Nat) : Bool :=
  match bs with
  | 27 :: rest =>
    match rest.getLast? with
    | some b => isFinalByte b
    | none => false
  | _ => false

/-- An interpreter result is well formed when any non-empty success is one
complete escape sequence; errors carry no bytes by construction. -/
def okIsComplete (r : Except KeyErr (List Nat)) : Bool :=
  match r with
  | .ok bs => bs.isEmpty || isCompleteSeq bs
  | .error _ => true

/-- A letter byte is never a digit byte. -/
theorem letter_not_digit {c : Nat} (h : isLetterByte c = true) : isDigitByte c = false := by
  simp [isLetterByte, isDigitByte] at *
  omega

/-- A number below ten prints as its single digit byte. -/
theorem natBytes_single {n : Nat} (h : n < 10) : natBytes n = [48 + n] := by
  simp [natBytes, digitsAux, h]

/-- Every byte produced by `digitsAux` is a digit byte. -/
theorem digitsAux_digits : ∀ fuel n, ∀ b ∈ digitsAux fuel n, isDigitByte b = true := by
  intro fuel
  induction fuel with
  | zero => intro n b hb; simp [digitsAux] at hb
  | succ f ih =>
    intro n b hb
    by_cases h : n < 10
    · simp [digitsAux, h] at hb
      subst hb
      simp [isDigitByte]
      omega
    · simp [digitsAux, h] at hb
      rcases hb with hb | hb
      · exact ih _ _ hb
      · subst hb
        simp [isDigitByte]
        omega

/-- `digitsAux` with positive fuel never returns the empty list. -/
theorem digitsAux_ne_nil (fuel n : Nat) : digitsAux (fuel+1) n ≠ [] := by
  by_cases h : n < 10 <;> simp [digitsAux, h]

/-- Splitting an all-digit run followed by a tilde recovers the run. -/
theorem splitDigits_all (ds : List Nat) (h : ∀ b ∈ ds, isDigitByte b = true) :
    splitDigits (ds ++ [126]) = (ds, [126]) := by
  induction ds with
  | nil => simp [splitDigits, isDigitByte]
  | cons d tl ih =>
    have hd : isDigitByte d = true := h d (by simp)
    have ht : ∀ b ∈ tl, isDigitByte b = true := fun b hb => h b (by simp [hb])
    simp [splitDigits, hd, ih ht]

/-- Reading back the digit bytes of `n` yields `n` (fuel-indexed form). -/
theorem digitsVal_digitsAux : ∀ fuel n, n < fuel → digitsVal (digitsAux fuel n) = n := by
  intro fuel
  induction fuel with
  | zero => intro n h; exact absurd h (Nat.not_lt_zero n)
  | succ f ih =>
    intro n h
    by_cases h10 : n < 10
    · simp [digitsAux, h10, digitsVal]
    · have hdiv : n / 10 < f := by omega
      have hrec := ih (n / 10) hdiv
      simp only [digitsVal] at hrec ⊢
      simp only [digitsAux, h10, if_false, List.foldl_append, hrec, List.foldl_cons,
        List.foldl_nil]
      omega

/-- Reading back the decimal bytes of `n` yields `n`. -/
theorem digitsVal_natBytes (n : Nat) : digitsVal (natBytes n) = n :=
  digitsVal_digitsAux (n+1) n (Nat.lt_succ_self n)

/-- Composing a CSI-tilde template with parameter `P` splices `; P` before
the tilde. -/
theorem modify_tilde (N P : Nat) (h2 : 2 ≤ P) (h8 : P ≤ 8) :
    modify_key_bytes ([27, 91] ++ natBytes N ++ [126]) P =
      .ok ([27, 91] ++ natBytes N ++ [59, 48 + P, 126]) := by
  have hall : ∀ b ∈ natBytes N, isDigitByte b = true :=
    fun b hb => digitsAux_digits (N+1) N b hb
  have hsplit := splitDigits_all (natBytes N) hall
  have hP : natBytes P = [48 + P] := natBytes_single (by omega)
  cases hnb : natBytes N with
  | nil => exact absurd hnb (digitsAux_ne_nil N N)
  | cons d ds =>
    rw [hnb] at hsplit
    have hsplit' : splitDigits (d :: (ds ++ [126])) = (d :: ds, [126]) := by
      simpa using hsplit
    have hval : digitsVal (d :: ds) = N := by rw [← hnb]; exact digitsVal_natBytes N
    simp [modify_key_bytes, parse, parseCsiBody, hnb, hsplit', hval, compose, hP,
      Except.map]

/-- Composing a CSI-letter template with parameter `P` yields
`ESC [ 1 ; P letter`. -/
theorem modify_letter_csi (c P : Nat) (hc : isLetterByte c = true)
    (h2 : 2 ≤ P) (h8 : P ≤ 8) :
    modify_key_bytes [27, 91, c] P = .ok [27, 91, 49, 59, 48 + P, c] := by
  have hd := letter_not_digit hc
  have hP : natBytes P = [48 + P] := natBytes_single (by omega)
  simp [modify_key_bytes, parse, parseCsiBody, splitDigits, hd, hc, compose, hP,
    Except.map]

/-- Composing an SS3-letter template with parameter `P` rewrites it to the
CSI form `ESC [ 1 ; P letter`. -/
theorem modify_letter_ss3 (c P : Nat) (hc : isLetterByte c = true)
    (h2 : 2 ≤ P) (h8 : P ≤ 8) :
    modify_key_bytes [27, 79, c] P = .ok [27, 91, 49, 59, 48 + P, c] := by
  have hP : natBytes P = [48 + P] := natBytes_single (by omega)
  simp [modify_key_bytes, parse, hc, compose, hP, Except.map]

/-- C1: composing any letter-shape capability template (CSI base
`ESC [ letter` or SS3 base `ESC O letter`) with any modifier parameter
P ∈ [2,8] yields exactly `ESC [ 1 ; P letter` — an SS3 base is rewritten to
CSI form; in particular modify_complex_key kcuu1 gives ESC [ 1 ; 4 A at
parameter 4 and ESC [ 1 ; 3 A at parameter 3. -/
theorem letter_shape_composition :
    (∀ c P, isLetterByte c = true → 2 ≤ P → P ≤ 8 →
      modify_key_bytes [27, 91, c] P = .ok [27, 91, 49, 59, 48 + P, c] ∧
      modify_key_bytes [27, 79, c] P = .ok [27, 91, 49, 59, 48 + P, c]) ∧
    modify_complex_key "kcuu1" 4 = .ok [27, 91, 49, 59, 52, 65] ∧
    modify_complex_key "kcuu1" 3 = .ok [27, 91, 49, 59, 51, 65] := by
  refine ⟨fun c P hc h2 h8 =>
    ⟨modify_letter_csi c P hc h2 h8, modify_letter_ss3 c P hc h2 h8⟩, ?_, ?_⟩ <;> decide

/-- Witness for C1: the SS3 cursor-up template at modifier parameter 4. -/
theorem letter_shape_composition_witness :
    modify_key_bytes [27, 79, 65] 4 = .ok [27, 91, 49, 59, 52, 65] :=
  (letter_shape_composition.1 65 4 (by decide) (by decide) (by decide)).2

/-- C2: composing any tilde-shape capability template `ESC [ N ~` with any
modifier parameter P ∈ [2,8] yields exactly `ESC [ N ; P ~`; in particular
modify_complex_key kf5 at parameter 3 gives ESC [ 15 ; 3 ~. -/
theorem tilde_shape_composition :
    (∀ N P, 2 ≤ P → P ≤ 8 →
      modify_key_bytes ([27, 91] ++ natBytes N ++ [126]) P =
        .ok ([27, 91] ++ natBytes N ++ [59, 48 + P, 126])) ∧
    modify_complex_key "kf5" 3 = .ok [27, 91, 49, 53, 59, 51, 126] :=
  ⟨fun N P h2 h8 => modify_tilde N P h2 h8, by decide⟩

/-- Witness for C2: the kf5 template `ESC [ 15 ~` at modifier parameter 3. -/
theorem tilde_shape_composition_witness :
    modify_key_bytes ([27, 91] ++ natBytes 15 ++ [126]) 3 =
      .ok ([27, 91] ++ natBytes 15 ++ [59, 48 + 3, 126]) :=
  tilde_shape_composition.1 15 3 (by decide) (by decide)

/-- C3: the modifier encoder is exactly the table Shift→2, Alt→3,
Shift+Alt→4, Control→5, Shift+Control→6, Alt+Control→7, Shift+Alt+Control→8
on the seven non-empty subsets of Shift/Alt/Control, and it fails with
UnsupportedModifierCombination on the empty set and on any set containing a
modifier outside that set (the Super flag). -/
theorem modifier_encoder_table :
    encode ⟨true, false, false, false⟩ = .ok 2 ∧
    encode ⟨false, true, false, false⟩ = .ok 3 ∧
    encode ⟨true, true, false, false⟩ = .ok 4 ∧
    encode ⟨false, false, true, false⟩ = .ok 5 ∧
    encode ⟨true, false, true, false⟩ = .ok 6 ∧
    encode ⟨false, true, true, false⟩ = .ok 7 ∧
    encode ⟨true, true, true, false⟩ = .ok 8 ∧
    encode noMods = .error .unsupportedModifierCombination ∧
    (∀ m : ModifierSet, m.superKey = true →
      encode m = .error .unsupportedModifierCombination) := by
  refine ⟨?_, ?_, ?_, ?_, ?_, ?_, ?_, ?_, ?_⟩ <;> decide

/-- Witness for C3: a modifier set containing only Super is rejected. -/
theorem modifier_encoder_table_witness :
    encode ⟨false, false, false, true⟩ = .error .unsupportedModifierCombination :=
  modifier_encoder_table.2.2.2.2.2.2.2.2 ⟨false, false, false, true⟩ (by decide)

/-- C4: the capability kri is outside the two supported template shapes, so
modifying it fails with UnsupportedCapability for every modifier parameter,
producing no output bytes. -/
theorem kri_unsupported :
    ∀ P : Nat, modify_complex_key "kri" P = .error .unsupportedCapability := by
  intro P
  rfl

/-- C5: each movement key (Up, Down, Right, Left, Home, End) with no
modifiers and a PRESS action yields `ESC O letter` in application cursor-key
mode and `ESC [ letter` in normal mode, with final letters A, B, C, D, H, F
respectively. -/
theorem movement_unmodified_mode :
    ∀ ckm : Bool,
      interpret_key_event .up noMods ckm .press = .ok [27, if ckm then 79 else 91, 65] ∧
      interpret_key_event .down noMods ckm .press = .ok [27, if ckm then 79 else 91, 66] ∧
      interpret_key_event .right noMods ckm .press = .ok [27, if ckm then 79 else 91, 67] ∧
      interpret_key_event .left noMods ckm .press = .ok [27, if ckm then 79 else 91, 68] ∧
      interpret_key_event .home noMods ckm .press = .ok [27, if ckm then 79 else 91, 72] ∧
      interpret_key_event .endKey noMods ckm .press = .ok [27, if ckm then 79 else 91, 70] := by
  decide

/-- C6: F1–F4 with no modifiers in application mode yield `ESC O` followed by
P, Q, R, S; F5–F12 with no modifiers yield the CSI-tilde form `ESC [ N ~`
with N in (15, 17, 18, 19, 20, 21, 23, 24), in either cursor-key mode. -/
theorem function_keys_unmodified :
    (interpret_key_event .f1 noMods true .press = .ok [27, 79, 80] ∧
     interpret_key_event .f2 noMods true .press = .ok [27, 79, 81] ∧
     interpret_key_event .f3 noMods true .press = .ok [27, 79, 82] ∧
     interpret_key_event .f4 noMods true .press = .ok [27, 79, 83]) ∧
    ∀ ckm : Bool,
      interpret_key_event .f5 noMods ckm .press = .ok ([27, 91] ++ natBytes 15 ++ [126]) ∧
      interpret_key_event .f6 noMods ckm .press = .ok ([27, 91] ++ natBytes 17 ++ [126]) ∧
      interpret_key_event .f7 noMods ckm .press = .ok ([27, 91] ++ natBytes 18 ++ [126]) ∧
      interpret_key_event .f8 noMods ckm .press = .ok ([27, 91] ++ natBytes 19 ++ [126]) ∧
      interpret_key_event .f9 noMods ckm .press = .ok ([27, 91] ++ natBytes 20 ++ [126]) ∧
      interpret_key_event .f10 noMods ckm .press = .ok ([27, 91] ++ natBytes 21 ++ [126]) ∧
      interpret_key_event .f11 noMods ckm .press = .ok ([27, 91] ++ natBytes 23 ++ [126]) ∧
      interpret_key_event .f12 noMods ckm .press = .ok ([27, 91] ++ natBytes 24 ++ [126]) := by
  decide

/-- C7: Insert, Delete, PageUp, PageDown with no modifiers yield the single
fixed template `ESC [ N ~` with N = 2, 3, 5, 6 respectively, independent of
cursor-key mode. -/
theorem edit_keys_unmodified :
    ∀ ckm : Bool,
      interpret_key_event .insert noMods ckm .press = .ok [27, 91, 50, 126] ∧
      interpret_key_event .delete noMods ckm .press = .ok [27, 91, 51, 126] ∧
      interpret_key_event .pageUp noMods ckm .press = .ok [27, 91, 53, 126] ∧
      interpret_key_event .pageDown noMods ckm .press = .ok [27, 91, 54, 126] := by
  decide

/-- C8: for every special key and every supported non-empty modifier set, a
PRESS through the interpreter produces exactly the bytes of modify_key_bytes
applied to the key's application-mode (smkx) base template with the encoded
modifier parameter, in either cursor-key mode. -/
theorem interpret_refines_smkx :
    ∀ (k : KeyCode) (m : ModifierSet) (ckm : Bool),
      (encode m).isOk = true →
      interpret_key_event k m ckm .press =
        modify_key_bytes (smkx_key_map k) ((encode m).toOption.getD 0) := by
  decide

/-- Witness for C8: cursor up with Shift held, application mode. -/
theorem interpret_refines_smkx_witness :
    interpret_key_event .up ⟨true, false, false, false⟩ true .press =
      modify_key_bytes (smkx_key_map .up)
        ((encode ⟨true, false, false, false⟩).toOption.getD 0) :=
  interpret_refines_smkx .up ⟨true, false, false, false⟩ true (by decide)

/-- C9: a RELEASE action produces no output bytes for every key, modifier
set and cursor-key mode; only PRESS and REPEAT can produce output. -/
theorem release_no_output :
    ∀ (k : KeyCode) (m : ModifierSet) (ckm : Bool),
      interpret_key_event k m ckm .release = .ok [] := by
  decide

/-- C10: every non-empty byte string returned by the interpreter is one
complete escape sequence — it begins with the ESC byte and ends with a final
character (a letter or tilde); an error result carries no bytes at all by
construction of the result type. -/
theorem output_complete_sequence :
    ∀ (k : KeyCode) (m : ModifierSet) (ckm : Bool) (a : KeyAction),
      okIsComplete (interpret_key_event k m ckm a) = true := by
  decide
